import Mathlib

/-!
# Verification of the reM3 incremental sync + hierarchy resolution engine

Shallow embedding of the core modules of the reM3 repository:

* `src/utils.py`           — `sanitize_name`, `choose_unique_path`, `read_json`
* `src/organize.py`        — legacy organizer: `_resolve_collection_path`, `organize_files`
* `src/sync/organize.py`   — active organizer: `resolve_collection_path` (visited set),
                             `_build_collection_paths`, `_organize_documents`,
                             `_determine_destination_dir`, `_create_destination_path`
* `src/sync/pull.py`       — `_should_download_file`, `_download_recursive_sftp`
* `src/sync/index.py`      — `build_index`
* `src/errors.py`          — `retry_on_failure`

Python strings become `String`, filesystem paths become `List String` (the list of
components relative to the relevant root), modification times become `ℚ`
(timestamps are real-valued seconds; all comparisons in the source are exact
order comparisons, which ℚ models faithfully), and fallible operations return
`Option`.  Possibly nonterminating loops are embedded with an explicit fuel
parameter: the embedding returns `none` exactly when the loop of the source has
not finished within `fuel` iterations, so nontermination of the source shows up
as `∀ fuel, … = none`.
-/

/-- Embeds `utils.sanitize_name`: strip surrounding whitespace, replace `/`
and `\` with `-`, replace `:` with ` -`, then truncate to 200 characters.
Implemented on the character list (the replaced patterns are single
characters, so the per-character expansion is exactly Python's
`str.replace`, and `[:200]` is `take 200`). -/
def sanitizeName (name : String) : String :=
  let cs := name.toList
  let cs := ((cs.dropWhile Char.isWhitespace).reverse.dropWhile
    Char.isWhitespace).reverse
  let cs := cs.foldr (fun c acc =>
    if c = '/' ∨ c = '\\' then '-' :: acc
    else if c = ':' then ' ' :: '-' :: acc
    else c :: acc) []
  ⟨cs.take 200⟩

/-- First-match association-list lookup, the embedding of Python `dict`
indexing / `dict.get` for the string-keyed maps the source builds. -/
def lookupStr {α : Type} : List (String × α) → String → Option α
  | [], _ => none
  | (k, v) :: rest, key => if k = key then some v else lookupStr rest key

/-- Association-list lookup keyed by filesystem paths (lists of components);
the embedding of "what is on disk at this path". -/
def lookupPath {α : Type} : List (List String × α) → List String → Option α
  | [], _ => none
  | (k, v) :: rest, key => if k = key then some v else lookupPath rest key

/-- A node as built by `organize._build_nodes`: the four fields that
`_build_nodes` extracts from a `.metadata` sidecar record (absent fields
default to `""` there, so plain `String` fields are faithful). -/
structure PyNode where
  uuid : String
  name : String
  type : String
  parent : String
deriving DecidableEq, Repr

/-- The name segment `_resolve_collection_path` appends for a node:
`sanitize_name(cur.get("name") or cur.get("uuid") or uuid)` (Python `or`
falls through on the empty string). -/
def nodeSegName (uuid0 : String) (n : PyNode) : String :=
  sanitizeName (if n.name ≠ "" then n.name else if n.uuid ≠ "" then n.uuid else uuid0)

/-- One `while` loop of `organize._resolve_collection_path`, embedded with fuel.
The source has **no visited set**: the loop exits only when the current node's
parent is `"trash"`, is empty, or is missing from the node map.  `none` means
the loop has not exited within `fuel` iterations. -/
def resolveLoopFuel (nodes : List (String × PyNode)) (uuid0 : String) :
    Nat → Option PyNode → List String → Option (List String × Bool)
  | 0, _, _ => none
  | _ + 1, none, segs => some ((segs.drop 1).reverse, false)
  | fuel + 1, some cur, segs =>
    if cur.parent = "trash" then
      some ((segs.drop 1).reverse, true)
    else
      let segs' := segs ++ [nodeSegName uuid0 cur]
      if cur.parent = "" then
        some ((segs'.drop 1).reverse, false)
      else
        resolveLoopFuel nodes uuid0 fuel (lookupStr nodes cur.parent) segs'

/-- Embeds `organize._resolve_collection_path(nodes, uuid)` (fuel-bounded).
Returns `(path segments, is_in_trash)`; the source computes
`reversed(segs[1:])`, i.e. it drops the first appended segment — the node's
own name — before reversing. -/
def resolveCollectionPathFuel (nodes : List (String × PyNode)) (uuid : String)
    (fuel : Nat) : Option (List String × Bool) :=
  resolveLoopFuel nodes uuid fuel (lookupStr nodes uuid) []

/-- The two-node cyclic map of the cycle-safety claim: node `A` has parent `B`
and node `B` has parent `A`. -/
def cycleNodes : List (String × PyNode) :=
  [("A", ⟨"A", "NodeA", "CollectionType", "B"⟩),
   ("B", ⟨"B", "NodeB", "CollectionType", "A"⟩)]

/-! ## Active organizer (`src/sync/organize.py`) -/

/-- A collection entry as consumed by `_build_collection_paths`
(`{uuid, name, parent}`; a missing `parent` key reads as `""` through
`col.get("parent", "")`). -/
structure SyncCol where
  uuid : String
  name : String
  parent : String
deriving DecidableEq, Repr

/-- A document entry as consumed by `_organize_documents`
(`{uuid, title, type, parent, is_trashed}`; a missing `is_trashed` key is
falsy, i.e. `false`). -/
structure SyncDoc where
  uuid : String
  title : String
  type : String
  parent : String
  is_trashed : Bool
deriving DecidableEq, Repr

/-- The `while` loop of `resolve_collection_path` in
`_build_collection_paths`, embedded with fuel.  This variant keeps a
`visited` set: the loop exits as soon as the current id is empty, unknown, or
already visited.  The inner `Option` is the function's own result (`none` =
Python `return None` for a trashed chain); the outer `none` means fuel ran
out. -/
def syncResolveLoopFuel (cmap : List (String × SyncCol)) :
    Nat → String → List String → List String → Option (Option (List String))
  | 0, _, _, _ => none
  | fuel + 1, current, visited, path =>
    if current ≠ "" then
      match lookupStr cmap current with
      | some col =>
        if current ∈ visited then some (some path)
        else if col.parent = "trash" then some none
        else
          syncResolveLoopFuel cmap fuel col.parent (current :: visited)
            (sanitizeName col.name :: path)
      | none => some (some path)
    else some (some path)

/-- Embeds `sync.organize.resolve_collection_path(collection_uuid)`
(fuel-bounded). -/
def syncResolveCollectionPath (cmap : List (String × SyncCol)) (uuid : String)
    (fuel : Nat) : Option (Option (List String)) :=
  syncResolveLoopFuel cmap fuel uuid [] []

/-- The per-collection fold of `_build_collection_paths`: trashed collections
are skipped when trash is excluded, a `None` or empty resolved path registers
nothing, otherwise the collection's uuid is mapped to its resolved directory
path.  (Directory creation itself is not tracked here; the claims are about
the returned uuid-to-path maps.) -/
def buildColPathsGo (cmap : List (String × SyncCol)) (includeTrash : Bool)
    (fuel : Nat) : List SyncCol → List (String × List String) →
    Option (List (String × List String))
  | [], acc => some acc
  | col :: rest, acc =>
    if col.parent = "trash" ∧ ¬includeTrash then
      buildColPathsGo cmap includeTrash fuel rest acc
    else
      match syncResolveCollectionPath cmap col.uuid fuel with
      | none => none
      | some none => buildColPathsGo cmap includeTrash fuel rest acc
      | some (some p) =>
        if p = [] then buildColPathsGo cmap includeTrash fuel rest acc
        else buildColPathsGo cmap includeTrash fuel rest (acc ++ [(col.uuid, p)])

/-- Embeds `sync.organize._build_collection_paths` (the uuid-to-path map it
returns), fuel-bounded. -/
def buildCollectionPathsFuel (cols : List SyncCol) (includeTrash : Bool)
    (fuel : Nat) : Option (List (String × List String)) :=
  buildColPathsGo (cols.map fun c => (c.uuid, c)) includeTrash fuel cols []

/-- Embeds `sync.organize._determine_destination_dir`.  Note the source
checks `parent and parent in collection_paths` first, then the trash
sentinel, and otherwise routes to the destination root (`[]`). -/
def determineDestinationDir (parent : String)
    (cps : List (String × List String)) (includeTrash : Bool) :
    Option (List String) :=
  if parent ≠ "" ∧ (lookupStr cps parent).isSome then lookupStr cps parent
  else if parent = "trash" then
    if includeTrash then some ["trash"] else none
  else some []

/-- Embeds `sync.organize._create_destination_path`: sanitized title, plus an
extension chosen from the document type for non-notebook documents.  There is
no collision check here. -/
def createDestinationPath (destDir : List String) (title docType : String) :
    List String :=
  let clean := sanitizeName title
  if docType = "notebook" then destDir ++ [clean]
  else
    let ext := if docType = "pdf" then ".pdf"
      else if docType = "epub" then ".epub" else ""
    destDir ++ [clean ++ ext]

/-- Embeds `sync.organize._find_source_file` as an existence test:
notebooks need `raw_dir/{uuid}` to be a directory, other types need
`raw_dir/{uuid}.pdf` or `.epub` to exist. -/
def findSourceExists (isDirU : String → Bool) (hasExtU : String → String → Bool)
    (uuid docType : String) : Bool :=
  if docType = "notebook" then isDirU uuid
  else hasExtU uuid ".pdf" || hasExtU uuid ".epub"

/-- One iteration of `sync.organize._organize_documents`: skip trashed
documents (unless included), skip documents without a source artifact or a
destination directory, otherwise record the computed destination.
`_copy_document` deletes any existing destination and re-copies, and in a
filesystem-error-free run always returns `True`, so every document that
reaches the copy step is recorded. -/
def organizeDocStep (isDirU : String → Bool) (hasExtU : String → String → Bool)
    (cps : List (String × List String)) (includeTrash : Bool)
    (acc : List (String × List String)) (doc : SyncDoc) :
    List (String × List String) :=
  if doc.is_trashed ∧ ¬includeTrash then acc
  else if ¬findSourceExists isDirU hasExtU doc.uuid doc.type then acc
  else
    match determineDestinationDir doc.parent cps includeTrash with
    | none => acc
    | some destDir =>
      acc ++ [(doc.uuid, createDestinationPath destDir doc.title doc.type)]

/-- The whole `_organize_documents` loop. -/
def organizeDocumentsSync (docs : List SyncDoc) (isDirU : String → Bool)
    (hasExtU : String → String → Bool) (cps : List (String × List String))
    (includeTrash : Bool) : List (String × List String) :=
  docs.foldl (organizeDocStep isDirU hasExtU cps includeTrash) []

/-! ## Filesystem model and the legacy organizer (`src/organize.py`)

The destination filesystem is the set of paths (component lists relative to
`dest_root`) at which some entry — file, directory or symlink — exists;
`Path.exists() or Path.is_symlink()` is membership in that set. -/

/-- The CPython `pathlib` stem/suffix split: the suffix starts at the last
dot, provided that dot is neither the first nor the last character of the
name. -/
def pyStemSuffix (name : String) : String × String :=
  let cs := name.toList
  match cs.reverse.findIdx? (· = '.') with
  | some j =>
    let i := cs.length - 1 - j
    if 0 < i ∧ i < cs.length - 1 then (⟨cs.take i⟩, ⟨cs.drop i⟩)
    else (name, "")
  | none => (name, "")

/-- `Path.with_suffix(ext)` on the last component of a path. -/
def withSuffix (p : List String) (ext : String) : List String :=
  match p.getLast? with
  | none => p
  | some name => p.dropLast ++ [(pyStemSuffix name).1 ++ ext]

/-- Record a path as existing (`mkdir`/copy/symlink target). -/
def addPath (fs : List (List String)) (p : List String) : List (List String) :=
  if p ∈ fs then fs else p :: fs

/-- The nonempty path components a `mkdir(parents=True, exist_ok=True)` call
brings into existence. -/
def pathAncestors (p : List String) : List (List String) :=
  (List.range p.length).map (fun i => p.take (i + 1))

/-- Embeds `utils.ensure_directory`. -/
def ensureDirectory (fs : List (List String)) (p : List String) :
    List (List String) :=
  (pathAncestors p).foldl addPath fs

/-- Embeds `organize._link_or_copy`: a no-op when the destination already
exists (as anything, symlink included); otherwise the parent directories and
the destination come into existence.  Symlink vs copy leave the same
existence footprint, so `do_copy` does not appear. -/
def linkOrCopy (fs : List (List String)) (dst : List String) :
    List (List String) :=
  if dst ∈ fs then fs
  else addPath (ensureDirectory fs dst.dropLast) dst

/-- The suffix-probing loop of `utils.choose_unique_path`: try
`"{stem} ({i}){suffix}"` for `i = 1, 2, …` until a free name is found.  The
fuel only bounds the search; callers pass `fs.length + 1`, which always
suffices since the candidates are pairwise distinct. -/
def chooseUniqueFrom (fs : List (List String)) (dir : List String)
    (stem sfx : String) : Nat → Nat → List String
  | 0, i => dir ++ [stem ++ " (" ++ toString i ++ ")" ++ sfx]
  | fuel + 1, i =>
    let cand := dir ++ [stem ++ " (" ++ toString i ++ ")" ++ sfx]
    if cand ∈ fs then chooseUniqueFrom fs dir stem sfx fuel (i + 1) else cand

/-- Embeds `utils.choose_unique_path`. -/
def chooseUniquePath (fs : List (List String)) (p : List String) :
    List String :=
  if p ∈ fs then
    match p.getLast? with
    | none => p
    | some name =>
      let sp := pyStemSuffix name
      chooseUniqueFrom fs p.dropLast sp.1 sp.2 (fs.length + 1) 1
  else p

/-- The inputs `organize.organize_files` reads from `raw_dir`: the node map
produced by `_build_nodes`, plus which uuids have a notebook directory and
which have a `.pdf`/`.epub` source file. -/
structure RawDir where
  nodesList : List (String × PyNode)
  isDirU : String → Bool
  hasExtU : String → String → Bool

/-- One iteration of `organize.organize_files`'s node loop: resolve the
node's path (hanging — `none` — when resolution does not finish within
`fuel`), skip trashed nodes unless included, compute and uniquify the
destination, then link/copy a document source or create a collection
directory, recording the uuid-to-path mapping.  Symlinking and copying leave
the same existence footprint, so `do_copy` does not appear. -/
def organizeStep (raw : RawDir) (includeTrash : Bool) (fuel : Nat)
    (uuid : String) (node : PyNode) (fs : List (List String))
    (m : List (String × List String)) :
    Option (List (List String) × List (String × List String)) :=
  match resolveCollectionPathFuel raw.nodesList uuid fuel with
  | none => none
  | some (pathSegs, isTrash) =>
    if isTrash ∧ ¬includeTrash then some (fs, m)
    else
      let destBase :=
        if isTrash then "trash" :: pathSegs
        else if pathSegs ≠ [] then pathSegs
        else [sanitizeName (if node.name ≠ "" then node.name else uuid)]
      let destPath := chooseUniquePath fs destBase
      if node.type = "DocumentType" then
        if raw.isDirU uuid then
          some (linkOrCopy fs destPath, m ++ [(uuid, destPath)])
        else if raw.hasExtU uuid ".pdf" then
          let dstFile := chooseUniquePath fs (withSuffix destPath ".pdf")
          some (linkOrCopy fs dstFile, m ++ [(uuid, dstFile)])
        else if raw.hasExtU uuid ".epub" then
          let dstFile := chooseUniquePath fs (withSuffix destPath ".epub")
          some (linkOrCopy fs dstFile, m ++ [(uuid, dstFile)])
        else some (fs, m)
      else if node.type = "CollectionType" then
        some (ensureDirectory fs destPath, m ++ [(uuid, destPath)])
      else some (fs, m)

/-- The node loop of `organize.organize_files`. -/
def organizeGo (raw : RawDir) (includeTrash : Bool) (fuel : Nat) :
    List (String × PyNode) → List (List String) → List (String × List String) →
    Option (List (List String) × List (String × List String))
  | [], fs, m => some (fs, m)
  | (uuid, node) :: rest, fs, m =>
    match organizeStep raw includeTrash fuel uuid node fs m with
    | none => none
    | some r => organizeGo raw includeTrash fuel rest r.1 r.2

/-- Embeds `organize.organize_files`: optional `clear_dest` wipe of the
destination tree, then the per-node fold over the node map.  Returns the
final destination filesystem and the uuid-to-path map (`do_copy` only
selects symlink vs copy, which have the same existence footprint). -/
def organizeFilesFuel (raw : RawDir) (doCopy includeTrash clearDest : Bool)
    (fs0 : List (List String)) (fuel : Nat) :
    Option (List (List String) × List (String × List String)) :=
  organizeGo raw includeTrash fuel raw.nodesList
    (if clearDest then [] else fs0) []

/-! ## Remote sync engine (`src/sync/pull.py`) -/

/-- The remote metadata `_should_download_file` reads from `sftp.stat`:
`st_size` and `st_mtime` (paramiko may report no mtime, and the source
coalesces it with `or 0`). -/
structure RemoteStat where
  size : Nat
  mtime : Option ℚ
deriving DecidableEq, Repr

/-- The local metadata from `local_path.stat()`. -/
structure LocalStat where
  size : Nat
  mtime : ℚ
deriving DecidableEq, Repr

/-- Embeds `pull._should_download_file`.  `statRes = none` models the
`except` branch: some stat call raised, and the decision catches the
exception and errs on the side of downloading.  The reason strings are the
source's tags with their interpolated details elided. -/
def shouldDownloadFile (force localExists : Bool)
    (statRes : Option (RemoteStat × LocalStat)) : Bool × String :=
  if force then (true, "forced")
  else if ¬localExists then (true, "new file")
  else
    match statRes with
    | none => (true, "check failed")
    | some (r, l) =>
      if r.size ≠ l.size then (true, "size changed")
      else if |r.mtime.getD 0 - l.mtime| > 1 then (true, "modified")
      else (false, "unchanged")

/-! ## Retry policy (`src/errors.py`) and `pull_from_tablet` -/

/-- The error kinds a sync attempt can surface (`errors.py` taxonomy as used
by `pull_from_tablet`). -/
inductive SyncException where
  | authNoPassword
  | authFailed
  | connFailed
  | syncFailed
deriving DecidableEq, Repr

/-- The `for attempt in range(1, max_retries + 1)` loop of
`errors.retry_on_failure`, over the explicit list of attempt numbers.  The
attempt function maps the attempt number to that attempt's outcome.  Returns
(the surfaced result if the loop returned or re-raised, the number of
attempts actually made, the backoff waits slept between attempts).  The bare
`except Exception` catches every error kind alike. -/
def retryGo {α : Type} (f : Nat → Except SyncException α) :
    List Nat → Option (Except SyncException α) × Nat × List Nat
  | [] => (none, 0, [])
  | attempt :: rest =>
    match f attempt with
    | Except.ok a => (some (Except.ok a), 1, [])
    | Except.error e =>
      if rest = [] then (some (Except.error e), 1, [])
      else
        let r := retryGo f rest
        (r.1, r.2.1 + 1, 2 ^ (attempt - 1) :: r.2.2)

/-- Embeds `errors.retry_on_failure(func, max_retries)`. -/
def retryOnFailure {α : Type} (f : Nat → Except SyncException α)
    (maxRetries : Nat) : Option (Except SyncException α) × Nat × List Nat :=
  retryGo f (List.range' 1 maxRetries)

/-- Embeds the failure-handling skeleton of `pull.pull_from_tablet`: an empty
password raises `AuthenticationError` before any sync attempt; otherwise
`_do_sync` (whose per-attempt outcome, after the source's mapping of paramiko
exceptions to `AuthenticationError`/`ConnectionError`, is `attempt`) runs
under `retry_on_failure` with `max_retries = 3`. -/
def pullFromTabletModel {α : Type} (password : String)
    (attempt : Nat → Except SyncException α) (maxRetries : Nat) :
    Option (Except SyncException α) × Nat × List Nat :=
  if password = "" then (some (Except.error SyncException.authNoPassword), 0, [])
  else retryOnFailure attempt maxRetries

/-! ## Catalog builder (`src/sync/index.py`) -/

/-- The fields `build_index` reads from a `.metadata` sidecar record; a
`none` field is an absent key. -/
structure MetaJson where
  visibleName : Option String
  type : Option String
  parent : Option String
  lastModified : Option Int
  pinned : Option Bool
deriving DecidableEq, Repr

/-- The fields `build_index` reads from a `.content` sidecar record. -/
structure ContentJson where
  fileType : Option String
  pageCount : Option Int
deriving DecidableEq, Repr

/-- One `.metadata` file found by the glob, with its parse results:
`meta = none` models `read_json` returning `None` on a malformed record
(utils.read_json catches every parse error), and likewise for the paired
`.content` record. -/
structure RawSidecar where
  uuid : String
  meta : Option MetaJson
  content : Option ContentJson
deriving DecidableEq, Repr

/-- A `documents[]` entry of the catalog artifact. -/
structure DocEntry where
  uuid : String
  title : String
  type : String
  parent : String
  modified : Int
  pinned : Bool
  pages : Int
  is_trashed : Bool
deriving DecidableEq, Repr

/-- A `collections[]` entry of the catalog artifact. -/
structure ColEntry where
  uuid : String
  name : String
  parent : String
  modified : Int
  pinned : Bool
deriving DecidableEq, Repr

/-- Embeds the per-record loop of `sync.index.build_index`: each record's
parse result is coalesced with `or {}`, so a failed parse contributes an
empty record, and every `.metadata` file yields exactly one catalog entry
(collection when `type == "CollectionType"`, document otherwise, with the
source's placeholder defaults). -/
def buildIndexStep (acc : List DocEntry × List ColEntry) (file : RawSidecar) :
    List DocEntry × List ColEntry :=
  let meta := file.meta.getD ⟨none, none, none, none, none⟩
  let content := file.content.getD ⟨none, none⟩
  if meta.type.getD "" = "CollectionType" then
    (acc.1, acc.2 ++ [⟨file.uuid, meta.visibleName.getD "Untitled Collection",
      meta.parent.getD "", meta.lastModified.getD 0, meta.pinned.getD false⟩])
  else
    (acc.1 ++ [⟨file.uuid, meta.visibleName.getD "Untitled Document",
      content.fileType.getD "unknown", meta.parent.getD "",
      meta.lastModified.getD 0, meta.pinned.getD false,
      content.pageCount.getD 0, decide (meta.parent.getD "" = "trash")⟩], acc.2)

/-- The whole record loop of `build_index`. -/
def buildIndexEntries (files : List RawSidecar) :
    List DocEntry × List ColEntry :=
  files.foldl buildIndexStep ([], [])

/-! ## Recursive sync walk (`pull._download_recursive_sftp`)

The remote tree is the listing structure `listdir_attr` exposes; the local
destination is a path-keyed map to `(size, mtime)`.  A download copies the
remote content faithfully (local size becomes the remote size) and then, only
when the entry's `st_mtime` is truthy, sets the local mtime to it; otherwise
the local mtime is the wall-clock time `now` of the transfer.  With no remote
changes between `listdir_attr` and the `sftp.stat` call of
`_should_download_file`, both report the same size/mtime, which is how the
walk below feeds the decision. -/

/-- A remote tree entry: a file with its `st_size`/`st_mtime`, or a
directory with its listing. -/
inductive RTree where
  | file (name : String) (size : Nat) (mtime : Option ℚ)
  | dir (name : String) (children : List RTree)

/-- The name of a remote entry. -/
def treeName : RTree → String
  | RTree.file n _ _ => n
  | RTree.dir n _ => n

/-- Local filesystem state: path to `(size, mtime)` for every present file. -/
def LFS : Type := List (List String × (Nat × ℚ))

/-- Handling of one remote file in the walk: apply the should-transfer
decision; on transfer, write the file locally and preserve the remote mtime
when it is truthy (`if entry.st_mtime:`), else leave the transfer-time mtime
`now`.  Returns (new local state, downloaded, skipped). -/
def syncFile (force : Bool) (now : ℚ) (fs : LFS) (path : List String)
    (size : Nat) (mtime : Option ℚ) : LFS × Nat × Nat :=
  let localSt := lookupPath fs path
  let statRes := localSt.map (fun l => (RemoteStat.mk size mtime, LocalStat.mk l.1 l.2))
  if (shouldDownloadFile force localSt.isSome statRes).1 then
    let newMtime : ℚ :=
      match mtime with
      | some t => if t ≠ 0 then t else now
      | none => now
    ((path, (size, newMtime)) :: fs, 1, 0)
  else (fs, 0, 1)

mutual

/-- One entry of `_download_recursive_sftp`'s listing loop. -/
def syncEntry (force : Bool) (now : ℚ) (fs : LFS) (pre : List String) :
    RTree → LFS × Nat × Nat
  | RTree.file name size mtime => syncFile force now fs (pre ++ [name]) size mtime
  | RTree.dir name children => syncForest force now fs (pre ++ [name]) children

/-- The listing loop of `_download_recursive_sftp` over one directory level,
threading local state and accumulating the downloaded/skipped counters. -/
def syncForest (force : Bool) (now : ℚ) (fs : LFS) (pre : List String) :
    List RTree → LFS × Nat × Nat
  | [] => (fs, 0, 0)
  | t :: ts =>
    let r1 := syncEntry force now fs pre t
    let r2 := syncForest force now r1.1 pre ts
    (r2.1, r1.2.1 + r2.2.1, r1.2.2 + r2.2.2)

end

mutual

/-- Remote listings are well formed: names within one directory level are
pairwise distinct (as in a real filesystem). -/
def wfTree : RTree → Bool
  | RTree.file _ _ _ => true
  | RTree.dir _ cs => wfForest cs

/-- Forest version of `wfTree`. -/
def wfForest : List RTree → Bool
  | [] => true
  | t :: ts => wfTree t && ts.all (fun u => treeName u != treeName t) && wfForest ts

end

mutual

/-- Every file's remote `st_mtime` is truthy (present and nonzero), i.e. the
`if entry.st_mtime:` guard fires after its transfer. -/
def truthyTree : RTree → Bool
  | RTree.file _ _ m => match m with | some t => decide (t ≠ 0) | none => false
  | RTree.dir _ cs => truthyForest cs

/-- Forest version of `truthyTree`. -/
def truthyForest : List RTree → Bool
  | [] => true
  | t :: ts => truthyTree t && truthyForest ts

end

mutual

/-- Number of files in a remote tree. -/
def countFilesTree : RTree → Nat
  | RTree.file _ _ _ => 1
  | RTree.dir _ cs => countFilesForest cs

/-- Number of files in a remote forest. -/
def countFilesForest : List RTree → Nat
  | [] => 0
  | t :: ts => countFilesTree t + countFilesForest ts

end

mutual

/-- The local state is fresh for a remote tree under prefix `pre`: every
remote file has a local copy of the same size whose mtime is within the
1-second tolerance of the (coalesced) remote mtime — exactly the state in
which the should-transfer decision says "unchanged". -/
def freshTree (fs : LFS) (pre : List String) : RTree → Prop
  | RTree.file n size m =>
    ∃ lm : ℚ, lookupPath fs (pre ++ [n]) = some (size, lm) ∧ |m.getD 0 - lm| ≤ 1
  | RTree.dir n cs => freshForest fs (pre ++ [n]) cs

/-- Forest version of `freshTree`. -/
def freshForest (fs : LFS) (pre : List String) : List RTree → Prop
  | [] => True
  | t :: ts => freshTree fs pre t ∧ freshForest fs pre ts

end

/-- `q` lies inside the subtree of the entry named `n` of the directory at
`pre`: its first `|pre| + 1` components are `pre ++ [n]`. -/
def inSubdir (pre : List String) (n : String) (q : List String) : Prop :=
  q.take (pre.length + 1) = pre ++ [n]

/-! ## Concrete scenarios from the spec's testable properties -/

/-- The path-resolution example: Document `A` ("Trip Plans") inside
Collection `B` ("2024") at the root. -/
def tripPlansNodes : List (String × PyNode) :=
  [("A", ⟨"A", "Trip Plans", "DocumentType", "B"⟩),
   ("B", ⟨"B", "2024", "CollectionType", ""⟩)]

/-- A raw directory with one root-level pdf document named "Draft". -/
def draftRaw : RawDir :=
  ⟨[("doc1", ⟨"doc1", "Draft", "DocumentType", ""⟩)],
   fun _ => false, fun u e => u == "doc1" && e == ".pdf"⟩

/-- First legacy organize run over `draftRaw` into an empty destination,
without `clear_dest`. -/
def draftRun1 : Option (List (List String) × List (String × List String)) :=
  organizeFilesFuel draftRaw false false false [] 9

/-- The destination tree `draftRun1` leaves behind. -/
def draftFs1 : List (List String) := (draftRun1.getD ([], [])).1

/-- Second legacy organize run over the unchanged `draftRaw`, again without
`clear_dest`, starting from the tree the first run produced. -/
def draftRun2 : Option (List (List String) × List (String × List String)) :=
  organizeFilesFuel draftRaw false false false draftFs1 9

/-- A raw directory with two distinct root-level pdf documents both named
"Draft" (the uniqueness scenario). -/
def twoDraftsRaw : RawDir :=
  ⟨[("u1", ⟨"u1", "Draft", "DocumentType", ""⟩),
    ("u2", ⟨"u2", "Draft", "DocumentType", ""⟩)],
   fun _ => false, fun u e => (u == "u1" || u == "u2") && e == ".pdf"⟩

/-- The same two same-named sibling documents as catalog entries for the
active sync organizer. -/
def twoDraftsDocs : List SyncDoc :=
  [⟨"u1", "Draft", "pdf", "", false⟩, ⟨"u2", "Draft", "pdf", "", false⟩]

/-- Source lookup for `twoDraftsDocs`: both uuids have a `.pdf` artifact. -/
def twoDraftsHasExt : String → String → Bool :=
  fun u e => (u == "u1" || u == "u2") && e == ".pdf"

/-- A remote tree with a single file whose `st_mtime` is exactly 0 (falsy in
Python), the input on which sync idempotence fails. -/
def zeroMtimeTree : List RTree := [RTree.file "a" 5 (some 0)]

/-- A two-level remote tree whose files all carry truthy (nonzero) mtimes:
one root file and one file inside a subdirectory. -/
def demoTree : List RTree :=
  [RTree.file "a" 5 (some 10), RTree.dir "d" [RTree.file "b" 3 (some 4)]]

/-- A raw directory with one trashed document (`parent = "trash"`) and one
live root-level document, both with pdf sources. -/
def trashRaw : RawDir :=
  ⟨[("t1", ⟨"t1", "Secret", "DocumentType", "trash"⟩),
    ("d1", ⟨"d1", "Keep", "DocumentType", ""⟩)],
   fun _ => false, fun u e => (u == "t1" || u == "d1") && e == ".pdf"⟩

/-- The same two documents as catalog entries for the active sync
organizer. -/
def trashDocs : List SyncDoc :=
  [⟨"t1", "Secret", "pdf", "trash", true⟩, ⟨"d1", "Keep", "pdf", "", false⟩]

/-! ## Theorems -/

lemma cycleNodes_lookup_A : lookupStr cycleNodes "A" =
    some ⟨"A", "NodeA", "CollectionType", "B"⟩ := by rfl

lemma cycleNodes_lookup_B : lookupStr cycleNodes "B" =
    some ⟨"B", "NodeB", "CollectionType", "A"⟩ := by rfl

/-- On the cyclic map, the loop state alternates forever between node `A` and
node `B`: for every fuel bound and every accumulated segment list, the loop
fails to finish from either node. -/
lemma resolveLoop_cycle_none (uuid0 : String) : ∀ (fuel : Nat) (segs : List String),
    resolveLoopFuel cycleNodes uuid0 fuel
      (some ⟨"A", "NodeA", "CollectionType", "B"⟩) segs = none ∧
    resolveLoopFuel cycleNodes uuid0 fuel
      (some ⟨"B", "NodeB", "CollectionType", "A"⟩) segs = none := by
  intro fuel
  induction fuel with
  | zero => intro segs; exact ⟨rfl, rfl⟩
  | succ f ih =>
    intro segs
    constructor
    · show resolveLoopFuel cycleNodes uuid0 f (lookupStr cycleNodes "B") _ = none
      rw [cycleNodes_lookup_B]
      exact (ih _).2
    · show resolveLoopFuel cycleNodes uuid0 f (lookupStr cycleNodes "A") _ = none
      rw [cycleNodes_lookup_A]
      exact (ih _).1

/-- Helper: the should-transfer decision, when both stat calls succeed, is
true exactly when forced, the local copy is absent, the sizes differ, or the
mtimes (remote coalesced with 0) differ by more than one second. -/
lemma shouldDownload_eq_true_iff (force localExists : Bool) (r : RemoteStat)
    (l : LocalStat) :
    (shouldDownloadFile force localExists (some (r, l))).1 = true ↔
      (force = true ∨ localExists = false ∨ r.size ≠ l.size ∨
        |r.mtime.getD 0 - l.mtime| > 1) := by
  unfold shouldDownloadFile
  by_cases hf : force = true
  · simp [hf]
  · by_cases he : localExists = true
    · by_cases hs : r.size = l.size
      · by_cases hm : |r.mtime.getD 0 - l.mtime| > 1
        · simp [hf, he, hs, hm]
        · simp [hf, he, hs, hm]
      · simp [hf, he, hs]
    · simp [hf, he, Bool.not_eq_true localExists |>.mp he]

/-- C1: for a file reached by the walk whose remote and local stat both
succeed (remote size `rs`, remote mtime `rm`, local size `ls`, local mtime
`lm`), `_should_download_file` answers `True` iff the transfer is forced, or
the local copy is absent, or the sizes differ, or the mtimes differ by more
than one second; otherwise the file is skipped as unchanged. -/
theorem change_detection_iff (force localExists : Bool) (rs ls : Nat)
    (rm lm : ℚ) :
    (shouldDownloadFile force localExists
        (some (⟨rs, some rm⟩, ⟨ls, lm⟩))).1 = true ↔
      (force = true ∨ localExists = false ∨ rs ≠ ls ∨ |rm - lm| > 1) := by
  simpa using shouldDownload_eq_true_iff force localExists ⟨rs, some rm⟩ ⟨ls, lm⟩

/-- C10: with the local copy present and no force, a failing stat call lands
in the `except` branch: the decision returns `True` ("check failed") instead
of propagating the exception, so the file is downloaded rather than
skipped. -/
theorem stat_failure_downloads :
    shouldDownloadFile false true none = (true, "check failed") := rfl

/-- C2: on the malformed two-node map where `A`'s parent is `B` and `B`'s
parent is `A`, the legacy `_resolve_collection_path` walk never finishes: for
every iteration bound the loop is still running (the source has no visited
set, so this models an infinite loop). -/
theorem cycle_resolution_never_terminates (fuel : Nat) :
    resolveCollectionPathFuel cycleNodes "A" fuel = none := by
  unfold resolveCollectionPathFuel
  rw [cycleNodes_lookup_A]
  exact (resolveLoop_cycle_none "A" fuel []).1

/-- C5: on the example map (Document `A` "Trip Plans" inside Collection `B`
"2024"), the legacy `_resolve_collection_path` returns `(["2024"], false)` —
it drops the node's own name via `segs[1:]` — whereas the active sync
pipeline (collection paths from `_build_collection_paths`, then
`_organize_documents`) places the document at `["2024", "Trip Plans"]` as the
spec's example states. -/
theorem trip_plans_resolution :
    resolveCollectionPathFuel tripPlansNodes "A" 10 = some (["2024"], false) ∧
    organizeDocumentsSync [⟨"A", "Trip Plans", "notebook", "B", false⟩]
      (fun u => u == "A") (fun _ _ => false)
      ((buildCollectionPathsFuel [⟨"B", "2024", ""⟩] false 10).getD []) false
      = [("A", ["2024", "Trip Plans"])] := by
  exact ⟨rfl, rfl⟩

/-- C7 (counterexample): in the active sync organizer, two distinct documents
with identical sanitized name "Draft" resolving to the same destination
directory are both mapped to the *same* destination path `["Draft.pdf"]` — no
`" (1)"` suffix is computed, and `_copy_document` deletes the existing file
before re-copying, so the second document's output replaces the first's. -/
theorem sync_same_name_clobbers :
    organizeDocumentsSync twoDraftsDocs (fun _ => false) twoDraftsHasExt []
      false = [("u1", ["Draft.pdf"]), ("u2", ["Draft.pdf"])] := rfl

/-- C7 (amended): in the legacy organizer, which routes destinations through
`choose_unique_path`, the same two same-named sibling documents materialize
at two distinct paths, the second carrying the `" (1)"` suffix. -/
theorem legacy_same_name_disambiguates :
    organizeFilesFuel twoDraftsRaw false false false [] 9 =
      some ([["Draft (1).pdf"], ["Draft.pdf"]],
        [("u1", ["Draft.pdf"]), ("u2", ["Draft (1).pdf"])]) := rfl

/-- C4 (counterexample): a sidecar record whose metadata fails to parse
(`read_json` returns `None`) is *not* skipped by `build_index`: the `or {}`
coalescing turns it into an empty record, and a document entry with
placeholder values derived from it appears in the catalog. -/
theorem malformed_record_not_skipped :
    buildIndexEntries [⟨"bad", none, none⟩] =
      ([⟨"bad", "Untitled Document", "unknown", "", 0, false, 0, false⟩], [])
      := rfl

/-- Helper: each `build_index` iteration grows exactly one of the two entry
lists by exactly one element. -/
lemma buildIndexStep_length (acc : List DocEntry × List ColEntry)
    (file : RawSidecar) :
    (buildIndexStep acc file).1.length + (buildIndexStep acc file).2.length
      = acc.1.length + acc.2.length + 1 := by
  unfold buildIndexStep
  by_cases h : ((file.meta.getD ⟨none, none, none, none, none⟩).type.getD ""
      = "CollectionType")
  · simp [h]; omega
  · simp [h]; omega

/-- C4 (amended): `build_index` never fails and never drops a record — every
`.metadata` file contributes exactly one catalog entry (a collection entry
when its type parses to `"CollectionType"`, otherwise a document entry,
malformed records included via placeholder defaults). -/
theorem catalog_entry_per_record (files : List RawSidecar) :
    (buildIndexEntries files).1.length + (buildIndexEntries files).2.length
      = files.length := by
  suffices h : ∀ (fs : List RawSidecar) (acc : List DocEntry × List ColEntry),
      (fs.foldl buildIndexStep acc).1.length
        + (fs.foldl buildIndexStep acc).2.length
        = acc.1.length + acc.2.length + fs.length by
    simpa [buildIndexEntries] using h files ([], [])
  intro fs
  induction fs with
  | nil => intro acc; simp
  | cons f rest ih =>
    intro acc
    have := buildIndexStep_length acc f
    simp only [List.foldl_cons, List.length_cons]
    rw [ih (buildIndexStep acc f)]
    omega

/-- C6 (counterexample): re-running the legacy organizer without `clear_dest`
over an unchanged raw directory is not a no-op: the first run materializes
`Draft.pdf`, and the second run — finding that destination occupied — diverts
through `choose_unique_path` and *creates a new entry* `Draft (1).pdf`,
remapping the document to it. -/
theorem rerun_creates_new_entries :
    draftRun1 = some ([["Draft.pdf"]], [("doc1", ["Draft.pdf"])]) ∧
    draftRun2 = some ([["Draft (1).pdf"], ["Draft.pdf"]],
      [("doc1", ["Draft (1).pdf"])]) := ⟨rfl, rfl⟩

/-- C6 (amended): the no-op-on-existing behavior lives in the link/copy
primitive: `_link_or_copy` performs no filesystem mutation when its exact
destination path already exists (as a file, directory, or symlink). -/
theorem link_or_copy_noop_on_existing (fs : List (List String))
    (dst : List String) (h : dst ∈ fs) : linkOrCopy fs dst = fs := by
  simp [linkOrCopy, h]

/-- Witness for `link_or_copy_noop_on_existing` at a concrete occupied
destination. -/
theorem link_or_copy_noop_witness :
    ["Notes"] ∈ [["Notes"]] ∧ linkOrCopy [["Notes"]] ["Notes"] = [["Notes"]] :=
  ⟨by decide, link_or_copy_noop_on_existing [["Notes"]] ["Notes"] (by decide)⟩

/-- C3 (counterexample): an authentication failure raised *inside* the sync
attempt (paramiko's `AuthenticationException`, mapped to
`AuthenticationError` by `_do_sync`) is retried like any other failure: with
`max_retries = 3`, `retry_on_failure`'s bare `except Exception` makes three
attempts, sleeping the 1s and 2s backoffs in between, before surfacing the
authentication error — it is not surfaced immediately after the first
attempt. -/
theorem auth_failure_is_retried :
    pullFromTabletModel "hunter2"
      (fun _ => (Except.error SyncException.authFailed : Except SyncException Unit)) 3
      = (some (Except.error SyncException.authFailed), 3, [1, 2]) := rfl

/-- Helper: on a function that fails at every attempt with the same error,
the retry loop over attempts `start, …, start + len` makes all `len + 1`
attempts, waits `2^(attempt-1)` after each non-final one, and surfaces the
error of the last attempt. -/
lemma retryGo_const_error {α : Type} (e : SyncException) :
    ∀ (len start : Nat),
      retryGo (fun _ => (Except.error e : Except SyncException α))
          (List.range' start (len + 1))
        = (some (Except.error e), len + 1,
            (List.range len).map (fun k => 2 ^ (start + k - 1))) := by
  intro len
  induction len with
  | zero =>
    intro start
    simp [List.range', retryGo]
  | succ m ih =>
    intro start
    have hcons : List.range' start (m + 1 + 1) = start :: List.range' (start + 1) (m + 1) :=
      List.range'_succ start (m + 1) 1
    rw [hcons]
    have hne : List.range' (start + 1) (m + 1) ≠ [] := by
      simp [List.range'_eq_nil]
    unfold retryGo
    simp only [hne, if_false, ih (start + 1)]
    simp only [Prod.mk.injEq, true_and]
    rw [List.range_succ_eq_map]
    simp only [List.map_cons, List.map_map]
    congr 1
    simp

/-- C3 (amended): `pull_from_tablet` surfaces a *missing password*
immediately, before any sync attempt; but once the attempt runs,
`retry_on_failure` treats every failure kind identically — for any error `e`
(authentication and connection failures alike) and any positive attempt
budget `n`, it makes exactly `n` attempts with exponential backoff waits
`1s, 2s, 4s, …` between them and surfaces the last error. -/
theorem retry_uniform_over_error_kinds (e : SyncException)
    (f : Nat → Except SyncException Unit) (n : Nat) (hn : 1 ≤ n) :
    retryOnFailure (fun _ => (Except.error e : Except SyncException Unit)) n
        = (some (Except.error e), n, (List.range (n - 1)).map (fun k => 2 ^ k)) ∧
    pullFromTabletModel "" f 3
        = (some (Except.error SyncException.authNoPassword), 0, []) := by
  constructor
  · obtain ⟨m, rfl⟩ : ∃ m, n = m + 1 := ⟨n - 1, by omega⟩
    show retryGo (fun _ => (Except.error e : Except SyncException Unit))
        (List.range' 1 (m + 1)) = _
    rw [retryGo_const_error e m 1]
    simp only [Nat.add_sub_cancel, Prod.mk.injEq, true_and]
    apply List.map_congr_left
    intro k _
    congr 1
    omega
  · rfl

/-- Witness for `retry_uniform_over_error_kinds` at the source's defaults:
a connection failure, three attempts, backoff waits 1s and 2s. -/
theorem retry_uniform_witness :
    1 ≤ 3 ∧
    (retryOnFailure
        (fun _ => (Except.error SyncException.connFailed : Except SyncException Unit)) 3
        = (some (Except.error SyncException.connFailed), 3,
            (List.range (3 - 1)).map (fun k => 2 ^ k)) ∧
    pullFromTabletModel ""
        (fun _ => (Except.error SyncException.connFailed : Except SyncException Unit)) 3
        = (some (Except.error SyncException.authNoPassword), 0, [])) :=
  ⟨by decide,
    retry_uniform_over_error_kinds SyncException.connFailed
      (fun _ => Except.error SyncException.connFailed) 3 (by decide)⟩

/-- Helper: appending a differently-keyed entry cannot make a key appear. -/
lemma lookupStr_append_ne {α : Type} (m : List (String × α)) (k u : String)
    (v : α) (hm : lookupStr m u = none) (hk : k ≠ u) :
    lookupStr (m ++ [(k, v)]) u = none := by
  induction m with
  | nil => simp [lookupStr, hk]
  | cons p rest ih =>
    rw [List.cons_append]
    by_cases h : p.1 = u
    · rw [show p = (p.1, p.2) from rfl, lookupStr] at hm
      simp [h] at hm
    · rw [show p = (p.1, p.2) from rfl, lookupStr] at hm ⊢
      simp only [h, if_false] at hm ⊢
      exact ih hm

/-- Helper: with pairwise-distinct keys, association membership determines
the lookup result. -/
lemma lookupStr_eq_of_mem_nodup {α : Type} (l : List (String × α)) (k : String)
    (v : α) (hnd : (l.map Prod.fst).Nodup) (hmem : (k, v) ∈ l) :
    lookupStr l k = some v := by
  induction l with
  | nil => cases hmem
  | cons p rest ih =>
    rw [List.map_cons, List.nodup_cons] at hnd
    rcases List.mem_cons.mp hmem with h | h
    · rw [← h, lookupStr, if_pos rfl]
    · have hne : p.1 ≠ k := by
        intro he
        exact hnd.1 (he ▸ List.mem_map_of_mem Prod.fst h)
      rw [show p = (p.1, p.2) from rfl, lookupStr, if_neg hne]
      exact ih hnd.2 h

/-- Helper: a node whose parent is the trash sentinel resolves in the very
first loop iteration to the empty segment list with the trash flag set,
whatever its own name. -/
lemma resolve_trash_parent (nodes : List (String × PyNode)) (u : String)
    (n : PyNode) (hl : lookupStr nodes u = some n) (hp : n.parent = "trash") :
    ∀ f, 1 ≤ f → resolveCollectionPathFuel nodes u f = some ([], true) := by
  intro f hf
  obtain ⟨f', rfl⟩ : ∃ f', f = f' + 1 := ⟨f - 1, by omega⟩
  unfold resolveCollectionPathFuel
  rw [hl]
  unfold resolveLoopFuel
  rw [if_pos hp]
  rfl

/-- Helper: each `organize_files` iteration either leaves the uuid-to-path
map unchanged or appends exactly the processed node's uuid. -/
lemma organizeStep_map_shape (raw : RawDir) (includeTrash : Bool) (fuel : Nat)
    (uuid : String) (node : PyNode) (fs : List (List String))
    (m : List (String × List String))
    (r : List (List String) × List (String × List String))
    (h : organizeStep raw includeTrash fuel uuid node fs m = some r) :
    r.2 = m ∨ ∃ x, r.2 = m ++ [(uuid, x)] := by
  unfold organizeStep at h
  rcases hres : resolveCollectionPathFuel raw.nodesList uuid fuel with _ | ⟨segs, isTrash⟩
  · rw [hres] at h; cases h
  · rw [hres] at h
    simp only at h
    split at h
    · cases h; left; rfl
    · split at h
      · split at h
        · cases h; right; exact ⟨_, rfl⟩
        · split at h
          · cases h; right; exact ⟨_, rfl⟩
          · split at h
            · cases h; right; exact ⟨_, rfl⟩
            · cases h; left; rfl
      · split at h
        · cases h; right; exact ⟨_, rfl⟩
        · cases h; left; rfl

/-- Helper: the step for a trash-parented node (with trash excluded) is a
pure skip: state and map are returned unchanged. -/
lemma organizeStep_trash_skip (raw : RawDir) (fuel : Nat) (u : String)
    (n : PyNode) (hl : lookupStr raw.nodesList u = some n)
    (hp : n.parent = "trash") (hf : 1 ≤ fuel) (fs : List (List String))
    (m : List (String × List String)) :
    organizeStep raw false fuel u n fs m = some (fs, m) := by
  unfold organizeStep
  rw [resolve_trash_parent raw.nodesList u n hl hp fuel hf]
  simp

/-- Helper: over any tail of the node list, the legacy organizer never
records a uuid whose node has the trash sentinel parent (trash excluded),
provided it was not recorded before. -/
lemma organizeGo_trash_not_recorded (raw : RawDir) (fuel : Nat) (u : String)
    (n : PyNode) (hnd : (raw.nodesList.map Prod.fst).Nodup)
    (hl : lookupStr raw.nodesList u = some n) (hp : n.parent = "trash") :
    ∀ (iter : List (String × PyNode)) (fs : List (List String))
      (m : List (String × List String))
      (res : List (List String) × List (String × List String)),
      (∀ p ∈ iter, p ∈ raw.nodesList) →
      lookupStr m u = none →
      organizeGo raw false fuel iter fs m = some res →
      lookupStr res.2 u = none := by
  intro iter
  induction iter with
  | nil =>
    intro fs m res _ hm hgo
    unfold organizeGo at hgo
    cases hgo
    exact hm
  | cons p rest ih =>
    intro fs m res hsub hm hgo
    obtain ⟨uuid, node⟩ := p
    unfold organizeGo at hgo
    rcases hstep : organizeStep raw false fuel uuid node fs m with _ | r
    · rw [hstep] at hgo; cases hgo
    · rw [hstep] at hgo
      simp only at hgo
      have hrest : ∀ q ∈ rest, q ∈ raw.nodesList := fun q hq =>
        hsub q (List.mem_cons_of_mem _ hq)
      by_cases hu : uuid = u
      · subst hu
        have hmem : (uuid, node) ∈ raw.nodesList := hsub _ (List.mem_cons_self _ _)
        have hnode : node = n := by
          have := lookupStr_eq_of_mem_nodup raw.nodesList uuid node hnd hmem
          rw [hl] at this
          exact (Option.some.injEq _ _ ▸ this.symm)
        have hf : 1 ≤ fuel := by
          by_contra hc
          have hzero : fuel = 0 := by omega
          subst hzero
          rw [show organizeStep raw false 0 uuid node fs m = none from rfl] at hstep
          cases hstep
        rw [hnode, organizeStep_trash_skip raw fuel uuid n hl hp hf fs m] at hstep
        cases hstep
        exact ih fs m res hrest hm hgo
      · rcases organizeStep_map_shape raw false fuel uuid node fs m r hstep with hsh | ⟨x, hsh⟩
        · exact ih r.1 r.2 res hrest (hsh ▸ hm) hgo
        · exact ih r.1 r.2 res hrest
            (hsh ▸ lookupStr_append_ne m uuid u x hm hu) hgo

/-- Helper: in the active organizer, a document whose parent is the trash
sentinel is skipped by `_organize_documents` when trash is excluded,
regardless of its `is_trashed` flag: either the flag short-circuits it, or
`_determine_destination_dir` finds no collection keyed `"trash"` (the
sentinel is reserved and never a collection id), hits the trash branch, and
returns no destination. -/
lemma organizeDocStep_trash (isDirU : String → Bool)
    (hasExtU : String → String → Bool) (cps : List (String × List String))
    (d : SyncDoc) (hd : d.parent = "trash")
    (hcps : lookupStr cps "trash" = none)
    (acc : List (String × List String)) :
    organizeDocStep isDirU hasExtU cps false acc d = acc := by
  unfold organizeDocStep
  by_cases ht : d.is_trashed = true
  · simp [ht]
  · simp only [Bool.not_eq_true] at ht
    by_cases hs : findSourceExists isDirU hasExtU d.uuid d.type = true
    · simp [ht, hs, determineDestinationDir, hd, hcps]
    · simp [ht, hs]

/-- Helper: each `_organize_documents` iteration either leaves the map
unchanged or appends exactly the processed document's uuid. -/
lemma organizeDocStep_shape (isDirU : String → Bool)
    (hasExtU : String → String → Bool) (cps : List (String × List String))
    (includeTrash : Bool) (acc : List (String × List String)) (doc : SyncDoc) :
    organizeDocStep isDirU hasExtU cps includeTrash acc doc = acc ∨
      ∃ x, organizeDocStep isDirU hasExtU cps includeTrash acc doc
        = acc ++ [(doc.uuid, x)] := by
  unfold organizeDocStep
  by_cases h1 : (doc.is_trashed = true ∧ includeTrash = false)
  · left; simp [h1.1, h1.2]
  · by_cases h2 : findSourceExists isDirU hasExtU doc.uuid doc.type = true
    · rcases hdd : determineDestinationDir doc.parent cps includeTrash with _ | dd
      · left; simp [h1, h2, hdd]
      · right
        exact ⟨createDestinationPath dd doc.title doc.type,
          by simp [h1, h2, hdd]⟩
    · left; simp [h1, h2]

/-- Helper: the `_organize_documents` fold never records the uuid of a
trash-parented document (trash excluded), provided no other document shares
its uuid. -/
lemma organizeDocs_trash_not_recorded (isDirU : String → Bool)
    (hasExtU : String → String → Bool) (cps : List (String × List String))
    (d : SyncDoc) (hd : d.parent = "trash")
    (hcps : lookupStr cps "trash" = none) :
    ∀ (docs : List SyncDoc) (acc : List (String × List String)),
      (∀ d' ∈ docs, d'.uuid = d.uuid → d' = d) →
      lookupStr acc d.uuid = none →
      lookupStr (docs.foldl (organizeDocStep isDirU hasExtU cps false) acc)
        d.uuid = none := by
  intro docs
  induction docs with
  | nil => intro acc _ h; simpa using h
  | cons q rest ih =>
    intro acc hq hacc
    rw [List.foldl_cons]
    refine ih _ (fun d' hd' he => hq d' (List.mem_cons_of_mem _ hd') he) ?_
    by_cases he : q.uuid = d.uuid
    · have hqd : q = d := hq q (List.mem_cons_self _ _) he
      rw [hqd, organizeDocStep_trash isDirU hasExtU cps d hd hcps acc]
      exact hacc
    · rcases organizeDocStep_shape isDirU hasExtU cps false acc q with hsh | ⟨x, hsh⟩
      · rw [hsh]; exact hacc
      · rw [hsh]; exact lookupStr_append_ne acc q.uuid d.uuid x hacc he

/-- C9: a Document node whose parent reference is the trash sentinel
`"trash"` resolves as trashed regardless of its own name, and with trash
excluded it is entirely absent from the id-to-path map the materializer
returns — in the legacy organizer (given the node-set invariant that ids are
unique) and in the active sync organizer (given that no other document shares
its uuid and that `"trash"` is not a collection id, the sentinel being
reserved). -/
theorem trash_node_excluded :
    (∀ (raw : RawDir) (u : String) (n : PyNode),
      lookupStr raw.nodesList u = some n → n.parent = "trash" →
      (∀ f, 1 ≤ f → resolveCollectionPathFuel raw.nodesList u f = some ([], true)) ∧
      (∀ (doCopy clearDest : Bool) (fs0 : List (List String)) (fuel : Nat)
          (res : List (List String) × List (String × List String)),
        (raw.nodesList.map Prod.fst).Nodup →
        organizeFilesFuel raw doCopy false clearDest fs0 fuel = some res →
        lookupStr res.2 u = none)) ∧
    (∀ (docs : List SyncDoc) (isDirU : String → Bool)
        (hasExtU : String → String → Bool) (cps : List (String × List String))
        (d : SyncDoc),
      d ∈ docs → d.parent = "trash" → (docs.map SyncDoc.uuid).Nodup →
      lookupStr cps "trash" = none →
      lookupStr (organizeDocumentsSync docs isDirU hasExtU cps false) d.uuid
        = none) := by
  constructor
  · intro raw u n hl hp
    refine ⟨resolve_trash_parent raw.nodesList u n hl hp, ?_⟩
    intro _doCopy clearDest fs0 fuel res hnd hrun
    exact organizeGo_trash_not_recorded raw fuel u n hnd hl hp raw.nodesList
      (if clearDest then [] else fs0) [] res (fun _ hq => hq) rfl hrun
  · intro docs isDirU hasExtU cps d hmem hd hnd hcps
    have hinj : ∀ d' ∈ docs, d'.uuid = d.uuid → d' = d := fun d' hd' he =>
      List.inj_on_of_nodup_map hnd hd' hmem he
    exact organizeDocs_trash_not_recorded isDirU hasExtU cps d hd hcps docs []
      hinj rfl

/-- Witness for `trash_node_excluded`: one trashed document next to one live
document, in both organizers. -/
theorem trash_node_excluded_witness :
    (lookupStr trashRaw.nodesList "t1"
        = some (PyNode.mk "t1" "Secret" "DocumentType" "trash") ∧
      (PyNode.mk "t1" "Secret" "DocumentType" "trash").parent = "trash" ∧
      (trashRaw.nodesList.map Prod.fst).Nodup ∧
      organizeFilesFuel trashRaw false false false [] 5
        = some ([["Keep.pdf"]], [("d1", ["Keep.pdf"])])) ∧
    (resolveCollectionPathFuel trashRaw.nodesList "t1" 5 = some ([], true) ∧
      lookupStr [("d1", ["Keep.pdf"])] "t1" = none) ∧
    (("t1" : String) ∈ trashDocs.map SyncDoc.uuid ∧
      (trashDocs.map SyncDoc.uuid).Nodup ∧
      lookupStr (organizeDocumentsSync trashDocs (fun _ => false)
        (fun u e => (u == "t1" || u == "d1") && e == ".pdf") [] false) "t1"
        = none) := by
  have h := trash_node_excluded
  have hlook : lookupStr trashRaw.nodesList "t1"
      = some (PyNode.mk "t1" "Secret" "DocumentType" "trash") := by decide
  have hleg := h.1 trashRaw "t1" (PyNode.mk "t1" "Secret" "DocumentType" "trash")
    hlook rfl
  refine ⟨⟨hlook, rfl, by decide, by decide⟩, ⟨hleg.1 5 (by decide), ?_⟩, ?_⟩
  · exact hleg.2 false false [] 5 ([["Keep.pdf"]], [("d1", ["Keep.pdf"])])
      (by decide) (by decide)
  · refine ⟨by decide, by decide, ?_⟩
    exact h.2 trashDocs (fun _ => false)
      (fun u e => (u == "t1" || u == "d1") && e == ".pdf") []
      ⟨"t1", "Secret", "pdf", "trash", true⟩
      (by decide) rfl (by decide) rfl

/-- Helper: a directory entry's own path lies in its subtree. -/
lemma inSubdir_self (pre : List String) (n : String) :
    inSubdir pre n (pre ++ [n]) := by
  unfold inSubdir
  have hlen : (pre ++ [n]).length = pre.length + 1 := by simp
  rw [← hlen, List.take_length _]

/-- Helper: a path inside the subtree of child `m` of the directory
`pre ++ [n]` is inside the subtree of entry `n` of the directory `pre`. -/
lemma inSubdir_of_deeper (pre : List String) (n m : String) (q : List String)
    (h : inSubdir (pre ++ [n]) m q) : inSubdir pre n q := by
  unfold inSubdir at h ⊢
  have hlen : (pre ++ [n]).length = pre.length + 1 := by simp
  rw [hlen] at h
  have h1 : q.take (pre.length + 1)
      = (q.take (pre.length + 1 + 1)).take (pre.length + 1) := by
    rw [List.take_take]
    congr 1
    omega
  rw [h1, h]
  have h2 : ((pre ++ [n]) ++ [m]).take (pre.length + 1)
      = ((pre ++ [n]) ++ [m]).take ((pre ++ [n]).length) := by rw [hlen]
  rw [h2, List.take_left]

/-- Helper: the directory-entry name a path lies under is unique. -/
lemma inSubdir_unique (pre : List String) (n n' : String) (q : List String)
    (h : inSubdir pre n q) (h' : inSubdir pre n' q) : n = n' := by
  unfold inSubdir at h h'
  have := h.symm.trans h'
  have := List.append_cancel_left this
  simpa using this

/-- Helper: a cons at a different path does not change a lookup. -/
lemma lookupPath_cons_ne {α : Type} (fs : List (List String × α))
    (p q : List String) (v : α) (h : q ≠ p) :
    lookupPath ((p, v) :: fs) q = lookupPath fs q := by
  show (if p = q then some v else lookupPath fs q) = lookupPath fs q
  rw [if_neg (fun he => h he.symm)]

/-- Helper: a sync step on one file path leaves lookups at every other path
unchanged. -/
lemma syncFile_lookup_other (force : Bool) (now : ℚ) (fs : LFS)
    (path : List String) (size : Nat) (mtime : Option ℚ) (q : List String)
    (hq : q ≠ path) :
    lookupPath (syncFile force now fs path size mtime).1 q = lookupPath fs q := by
  unfold syncFile
  dsimp only
  by_cases hd : (shouldDownloadFile force (lookupPath fs path).isSome
      ((lookupPath fs path).map
        (fun l => (RemoteStat.mk size mtime, LocalStat.mk l.1 l.2)))).1 = true
  · rw [if_pos hd]
    exact lookupPath_cons_ne fs path q _ hq
  · rw [if_neg hd]

mutual

/-- Helper: the recursive walk over one remote entry only writes paths inside
that entry's subtree. -/
theorem syncEntry_outside (force : Bool) (now : ℚ) (q : List String) :
    ∀ (t : RTree) (fs : LFS) (pre : List String),
      ¬ inSubdir pre (treeName t) q →
      lookupPath (syncEntry force now fs pre t).1 q = lookupPath fs q
  | RTree.file n size mtime, fs, pre, h => by
    have hq : q ≠ pre ++ [n] := fun he => h (he ▸ inSubdir_self pre n)
    exact syncFile_lookup_other force now fs (pre ++ [n]) size mtime q hq
  | RTree.dir n cs, fs, pre, h => by
    have hcs : ∀ t ∈ cs, ¬ inSubdir (pre ++ [n]) (treeName t) q :=
      fun t _ hin => h (inSubdir_of_deeper pre n (treeName t) q hin)
    exact syncForest_outside force now q cs fs (pre ++ [n]) hcs

/-- Helper: the recursive walk over a listing only writes paths inside the
subtrees of its entries. -/
theorem syncForest_outside (force : Bool) (now : ℚ) (q : List String) :
    ∀ (ts : List RTree) (fs : LFS) (pre : List String),
      (∀ t ∈ ts, ¬ inSubdir pre (treeName t) q) →
      lookupPath (syncForest force now fs pre ts).1 q = lookupPath fs q
  | [], _, _, _ => rfl
  | t :: ts, fs, pre, h => by
    show lookupPath (syncForest force now
      (syncEntry force now fs pre t).1 pre ts).1 q = _
    rw [syncForest_outside force now q ts (syncEntry force now fs pre t).1 pre
      (fun u hu => h u (List.mem_cons_of_mem _ hu))]
    exact syncEntry_outside force now q t fs pre (h t (List.mem_cons_self _ _))

end

mutual

/-- Helper: freshness for a tree only inspects lookups inside that tree's
subtree, so it transfers along any state change that agrees there. -/
theorem freshTree_transfer :
    ∀ (t : RTree) (fs fs' : LFS) (pre : List String),
      (∀ q, inSubdir pre (treeName t) q → lookupPath fs' q = lookupPath fs q) →
      freshTree fs pre t → freshTree fs' pre t
  | RTree.file n size m, fs, fs', pre, hag, hf => by
    obtain ⟨lm, hl, hm⟩ := hf
    exact ⟨lm, (hag (pre ++ [n]) (inSubdir_self pre n)).trans hl, hm⟩
  | RTree.dir n cs, fs, fs', pre, hag, hf => by
    show freshForest fs' (pre ++ [n]) cs
    exact freshForest_transfer cs fs fs' (pre ++ [n])
      (fun c hc q hq => hag q (inSubdir_of_deeper pre n (treeName c) q hq)) hf

/-- Forest version of `freshTree_transfer`. -/
theorem freshForest_transfer :
    ∀ (ts : List RTree) (fs fs' : LFS) (pre : List String),
      (∀ t ∈ ts, ∀ q, inSubdir pre (treeName t) q →
        lookupPath fs' q = lookupPath fs q) →
      freshForest fs pre ts → freshForest fs' pre ts
  | [], _, _, _, _, _ => trivial
  | t :: ts, fs, fs', pre, hag, hf => by
    obtain ⟨h1, h2⟩ := hf
    exact ⟨freshTree_transfer t fs fs' pre (hag t (List.mem_cons_self _ _)) h1,
      freshForest_transfer ts fs fs' pre
        (fun u hu => hag u (List.mem_cons_of_mem _ hu)) h2⟩

end

/-- Helper: handling one file leaves its own path fresh: either the file is
downloaded — the local copy then has the remote size and (the mtime being
truthy) exactly the remote mtime — or it is skipped because the existing
local copy already has the same size and an mtime within tolerance. -/
lemma syncFile_fresh (force : Bool) (now : ℚ) (fs : LFS) (path : List String)
    (size : Nat) (t : ℚ) (ht : t ≠ 0) :
    ∃ lm : ℚ, lookupPath (syncFile force now fs path size (some t)).1 path
      = some (size, lm) ∧ |(some t).getD 0 - lm| ≤ 1 := by
  unfold syncFile
  dsimp only
  by_cases hd : (shouldDownloadFile force (lookupPath fs path).isSome
      ((lookupPath fs path).map
        (fun l => (RemoteStat.mk size (some t), LocalStat.mk l.1 l.2)))).1 = true
  · rw [if_pos hd]
    refine ⟨if t ≠ 0 then t else now, ?_, ?_⟩
    · show (if path = path then _ else _) = _
      rw [if_pos rfl]
    · rw [if_pos ht]
      simp
  · rw [if_neg hd]
    rcases hls : lookupPath fs path with _ | ⟨ls, lt⟩
    · rw [hls] at hd
      refine absurd ?_ hd
      cases force <;> rfl
    · rw [hls] at hd
      simp only [Option.map_some', Option.isSome_some] at hd
      rw [shouldDownload_eq_true_iff] at hd
      push_neg at hd
      obtain ⟨-, -, hsize, hmt⟩ := hd
      dsimp only at hsize hmt
      refine ⟨lt, ?_, ?_⟩
      · rw [hsize]
      · simpa using hmt

mutual

/-- Helper: one pass of the walk (any force flag) over a well-formed,
truthy-mtime remote entry leaves the local state fresh for it. -/
theorem syncEntry_fresh :
    ∀ (t : RTree) (force : Bool) (now : ℚ) (fs : LFS) (pre : List String),
      wfTree t = true → truthyTree t = true →
      freshTree (syncEntry force now fs pre t).1 pre t
  | RTree.file n size m, force, now, fs, pre, _, htr => by
    show ∃ lm : ℚ, _
    rcases m with _ | t
    · exact absurd htr (by simp [truthyTree])
    · have ht : t ≠ 0 := by
        have := htr
        unfold truthyTree at this
        simpa using this
      exact syncFile_fresh force now fs (pre ++ [n]) size t ht
  | RTree.dir n cs, force, now, fs, pre, hwf, htr => by
    show freshForest (syncForest force now fs (pre ++ [n]) cs).1 (pre ++ [n]) cs
    exact syncForest_fresh cs force now fs (pre ++ [n]) hwf htr

/-- Forest version of `syncEntry_fresh`. -/
theorem syncForest_fresh :
    ∀ (ts : List RTree) (force : Bool) (now : ℚ) (fs : LFS) (pre : List String),
      wfForest ts = true → truthyForest ts = true →
      freshForest (syncForest force now fs pre ts).1 pre ts
  | [], _, _, _, _, _, _ => trivial
  | t :: ts, force, now, fs, pre, hwf, htr => by
    have hwf' : (wfTree t = true ∧ ∀ x ∈ ts, ¬treeName x = treeName t)
        ∧ wfForest ts = true := by
      unfold wfForest at hwf
      simpa [Bool.and_eq_true] using hwf
    have htr' : truthyTree t = true ∧ truthyForest ts = true := by
      unfold truthyForest at htr
      simpa [Bool.and_eq_true] using htr
    have h1 : freshTree (syncEntry force now fs pre t).1 pre t :=
      syncEntry_fresh t force now fs pre hwf'.1.1 htr'.1
    have h2 : freshForest (syncForest force now
        (syncEntry force now fs pre t).1 pre ts).1 pre ts :=
      syncForest_fresh ts force now (syncEntry force now fs pre t).1 pre
        hwf'.2 htr'.2
    refine ⟨?_, h2⟩
    refine freshTree_transfer t (syncEntry force now fs pre t).1
      (syncForest force now (syncEntry force now fs pre t).1 pre ts).1 pre ?_ h1
    intro q hq
    refine syncForest_outside force now q ts (syncEntry force now fs pre t).1 pre ?_
    intro u hu hu'
    exact hwf'.1.2 u hu (inSubdir_unique pre (treeName u) (treeName t) q hu' hq)

end

/-- Helper: on a fresh local copy, handling the file skips it and changes
nothing. -/
lemma syncFile_skip (now : ℚ) (fs : LFS) (path : List String) (size : Nat)
    (m : Option ℚ) (lm : ℚ) (hl : lookupPath fs path = some (size, lm))
    (hm : |m.getD 0 - lm| ≤ 1) :
    syncFile false now fs path size m = (fs, 0, 1) := by
  unfold syncFile
  dsimp only
  rw [hl]
  have hd : (shouldDownloadFile false (some ((size : Nat), lm)).isSome
      (Option.map (fun l => (RemoteStat.mk size m, LocalStat.mk l.1 l.2))
        (some ((size : Nat), lm)))).1 ≠ true := by
    simp only [Option.map_some', Option.isSome_some]
    intro hcontra
    rw [shouldDownload_eq_true_iff] at hcontra
    rcases hcontra with h | h | h | h
    · exact Bool.noConfusion h
    · exact Bool.noConfusion h
    · exact h rfl
    · dsimp only at h
      exact absurd h (not_lt.mpr hm)
  rw [if_neg hd]

mutual

/-- Helper: a forced-off walk over an entry whose local state is fresh
downloads nothing, skips every file and leaves the local state unchanged. -/
theorem syncEntry_skip :
    ∀ (t : RTree) (now : ℚ) (fs : LFS) (pre : List String),
      freshTree fs pre t →
      syncEntry false now fs pre t = (fs, 0, countFilesTree t)
  | RTree.file n size m, now, fs, pre, hf => by
    obtain ⟨lm, hl, hm⟩ := hf
    show syncFile false now fs (pre ++ [n]) size m = _
    rw [syncFile_skip now fs (pre ++ [n]) size m lm hl hm]
    rfl
  | RTree.dir n cs, now, fs, pre, hf => by
    show syncForest false now fs (pre ++ [n]) cs = _
    rw [syncForest_skip cs now fs (pre ++ [n]) hf]
    rfl

/-- Forest version of `syncEntry_skip`. -/
theorem syncForest_skip :
    ∀ (ts : List RTree) (now : ℚ) (fs : LFS) (pre : List String),
      freshForest fs pre ts →
      syncForest false now fs pre ts = (fs, 0, countFilesForest ts)
  | [], _, _, _, _ => rfl
  | t :: ts, now, fs, pre, hf => by
    obtain ⟨h1, h2⟩ := hf
    show (let r1 := syncEntry false now fs pre t;
      let r2 := syncForest false now r1.1 pre ts;
      (r2.1, r1.2.1 + r2.2.1, r1.2.2 + r2.2.2)) = _
    rw [show syncEntry false now fs pre t = (fs, 0, countFilesTree t) from
      syncEntry_skip t now fs pre h1]
    dsimp only
    rw [show syncForest false now fs pre ts = (fs, 0, countFilesForest ts) from
      syncForest_skip ts now fs pre h2]
    rfl

end

/-- C8 (counterexample): a remote file whose `st_mtime` is exactly 0 breaks
sync idempotence.  The first call downloads it as a new file but — 0 being
falsy — skips the `os.utime` call, leaving the transfer wall-clock time
(here 100) as the local mtime; the second call, with no remote change,
compares `remote_mtime or 0 = 0` against 100 and downloads it again:
`downloaded = 1`, not 0. -/
theorem zero_mtime_breaks_idempotence :
    (syncForest false 100 (syncForest false 100 [] [] zeroMtimeTree).1 []
      zeroMtimeTree).2.1 = 1 := by
  simp only [zeroMtimeTree, syncForest, syncEntry, syncFile, lookupPath,
    shouldDownloadFile, List.nil_append]
  norm_num

/-- C8 (amended): provided every remote file's `st_mtime` is truthy (present
and nonzero) — so that the engine does set the local mtime to the remote
mtime after each transfer — and remote listings have distinct names, a second
`Synchronize` call with no remote changes downloads nothing, whatever local
state the first call started from, whether or not it was forced, and whatever
the wall-clock times of the two runs are. -/
theorem sync_idempotent_with_truthy_mtimes (ts : List RTree) (fs0 : LFS)
    (force1 : Bool) (now1 now2 : ℚ) (hwf : wfForest ts = true)
    (htr : truthyForest ts = true) :
    (syncForest false now2 (syncForest force1 now1 fs0 [] ts).1 [] ts).2.1
      = 0 := by
  rw [syncForest_skip ts now2 (syncForest force1 now1 fs0 [] ts).1 []
    (syncForest_fresh ts force1 now1 fs0 [] hwf htr)]

/-- Witness for `sync_idempotent_with_truthy_mtimes`: a concrete two-level
remote tree with truthy mtimes, starting from an empty local store. -/
theorem sync_idempotent_witness :
    wfForest demoTree = true ∧ truthyForest demoTree = true ∧
    (syncForest false 200 (syncForest false 100 [] [] demoTree).1 []
      demoTree).2.1 = 0 :=
  ⟨by simp [demoTree, wfForest, wfTree, treeName],
   by simp [demoTree, truthyForest, truthyTree],
   sync_idempotent_with_truthy_mtimes demoTree [] false 100 200
     (by simp [demoTree, wfForest, wfTree, treeName])
     (by simp [demoTree, truthyForest, truthyTree])⟩
